import Mathlib

/-
  Verification of the Avelon loan ledger core.

  Shallow embedding of:
  - the off-chain `LoanService` (src/src/routes/wallet.routes.ts, second
    document in the concatenated file: createLoan / recordCollateralDeposit /
    activateLoan / recordRepayment / cancelLoan);
  - the repayment waterfall inside `LoanService.recordRepayment`;
  - the on-chain `AvelonLending` contract (same file, third document);
  - the on-chain `CollateralManager` contract (src/unnamed/part_002);
  - the GET /loans/:id collateral-ratio computation
    (src/src/routes/loan.routes.ts lines 99-111).

  Modelling conventions:
  - Prisma `Decimal` values (DECIMAL(65,30) columns, decimal.js arithmetic)
    are modelled as exact rationals `ℚ`.  decimal.js rounds every operation
    to 20 significant digits; for the additions, subtractions, `min`s and
    comparisons used by the ledger this rounding is exact on the magnitudes
    involved, and for the one division chain (interest accrual) the deviation
    is below 10⁻¹⁹ relative, far below the 10⁻⁶ granularity of every stated
    spec value.
  - Solidity `uint256` values are modelled as `ℕ`; an arithmetic overflow or
    a failed `require` (Solidity ^0.8 reverts) is modelled as `Option.none`.
  - Database effects are modelled by explicit state passing on `LedgerState`,
    which carries the mutable `Loan` row and the set of `txHash` values
    already present in the `LoanTransaction` table (the
    `LoanTransaction_txHash_key` unique index of the migration in
    src/unnamed/part_006 line 980 makes a second insert of the same hash
    fail: Prisma error P2002, modelled as `SvcError.uniqueViolation`).
  - The blockchain verifier (`blockchainService.verifyTransaction`) is an
    external collaborator; its result is passed in as the `txValid` flag and
    the verified transaction value `txValue`.
  - Wall-clock time is an abstract day counter `now : ℕ`.
-/

namespace Avelon

/-- Loan status enum (`LoanStatus` of `@avelon_capstone/types` off-chain;
the on-chain enum in AvelonLending.sol has the subset without
`collateralDeposited` and `expired`). -/
inductive LoanStatus where
  | pendingCollateral
  | collateralDeposited
  | active
  | repaid
  | liquidated
  | cancelled
  | expired
  deriving DecidableEq

/-- Errors the service layer can surface.  `validation`, `notFound`,
`forbidden`, `conflict`, `blockchain` are the `AppError` subclasses of
src/src/middleware/error.middleware.ts; `uniqueViolation` is a Prisma P2002
unique-constraint failure, which is not an `AppError` and reaches the client
as a generic 500 INTERNAL_ERROR. -/
inductive SvcError where
  | validation
  | notFound
  | forbidden
  | conflict
  | blockchain
  | uniqueViolation
  deriving DecidableEq

/-- The mutable monetary/status fields of a `Loan` row (migration in
src/unnamed/part_006; `collateralDeposited`, `interestOwed`, `feesOwed`
default to 0).  Amounts are ETH-denominated decimals, modelled as `ℚ`;
`interestRate` is an annual simple-interest percentage; `duration` is in
days; timestamps are abstract day counters. -/
structure Loan where
  principal : ℚ
  collateralRequired : ℚ
  collateralDeposited : ℚ
  originationFee : ℚ
  principalOwed : ℚ
  interestOwed : ℚ
  feesOwed : ℚ
  interestRate : ℚ
  duration : ℕ
  status : LoanStatus
  collateralDepositedAt : Option ℕ
  disbursedAt : Option ℕ
  dueDate : Option ℕ
  repaidAt : Option ℕ
  deriving DecidableEq

/-- Ledger state seen by one `LoanService` operation: the loan row plus the
`txHash` values already recorded in the `LoanTransaction` table (globally
unique by the `LoanTransaction_txHash_key` index). -/
structure LedgerState where
  loan : Loan
  txHashes : List String
  deriving DecidableEq

/-- Total owed on a loan, in the order the service computes it
(`loan.principalOwed.add(loan.interestOwed).add(loan.feesOwed)`,
wallet.routes.ts line 494). -/
def totalOwed (l : Loan) : ℚ :=
  l.principalOwed + l.interestOwed + l.feesOwed

namespace LoanService

/-- One step of the repayment waterfall.  Each of the three `// Pay ...`
blocks of `LoanService.recordRepayment` (wallet.routes.ts lines 520-538) has
this exact shape: when both the remaining payment and the bucket are
positive, `paid = Decimal.min(remaining, bucket)` is subtracted from the
bucket and from the remaining payment; otherwise both are unchanged.
Returns (new bucket, new remaining). -/
def payBucket (remaining bucket : ℚ) : ℚ × ℚ :=
  if remaining > 0 ∧ bucket > 0 then
    (bucket - min remaining bucket, remaining - min remaining bucket)
  else
    (bucket, remaining)

/-- The repayment allocation of `LoanService.recordRepayment`
(wallet.routes.ts lines 514-538): fees first, then interest, then principal.
Returns (newFeesOwed, newInterestOwed, newPrincipalOwed).  (The source's
principal block does not update `remaining` afterwards; `remaining` is dead
at that point, so only the bucket component is used.) -/
def allocate (payment feesOwed interestOwed principalOwed : ℚ) :
    ℚ × ℚ × ℚ :=
  let fees := payBucket payment feesOwed
  let interest := payBucket fees.2 interestOwed
  let principalNew := (payBucket interest.2 principalOwed).1
  (fees.1, interest.1, principalNew)

/-- `LoanService.activateLoan` (wallet.routes.ts lines 425-458): sets the
loan active, stamps disbursal, sets `dueDate = now + duration` days and
computes simple interest
`principal.mul(interestRate.div(100)).mul(duration.div(365))`. -/
def activateLoan (l : Loan) (now : ℕ) : Loan :=
  { l with
    status := LoanStatus.active
    disbursedAt := some now
    dueDate := some (now + l.duration)
    interestOwed :=
      l.principal * (l.interestRate / 100) * ((l.duration : ℚ) / 365) }

/-- `LoanService.recordRepayment` (wallet.routes.ts lines 467-588), after
the loan row has been found.  Check order follows the source: status must be
ACTIVE, the transaction must verify, the amount must not exceed
`principalOwed + interestOwed + feesOwed`, then the `LoanTransaction` insert
(which fails with P2002 when `txHash` is already recorded), then the
waterfall and the loan update; the loan flips to REPAID with `repaidAt`
stamped exactly when the new total owed is ≤ 0. -/
def recordRepayment (st : LedgerState) (amount : ℚ) (txHash : String)
    (txValid : Bool) (now : ℕ) : Except SvcError LedgerState :=
  if st.loan.status ≠ LoanStatus.active then
    Except.error SvcError.validation
  else if ¬ txValid then
    Except.error SvcError.validation
  else if totalOwed st.loan < amount then
    Except.error SvcError.validation
  else if txHash ∈ st.txHashes then
    Except.error SvcError.uniqueViolation
  else
    let r := allocate amount st.loan.feesOwed st.loan.interestOwed
      st.loan.principalOwed
    let newTotalOwed := r.2.2 + r.2.1 + r.1
    let isFullyRepaid := newTotalOwed ≤ 0
    Except.ok
      { loan :=
          { st.loan with
            principalOwed := r.2.2
            interestOwed := r.2.1
            feesOwed := r.1
            status :=
              if isFullyRepaid then LoanStatus.repaid else st.loan.status
            repaidAt :=
              if isFullyRepaid then some now else st.loan.repaidAt }
        txHashes := txHash :: st.txHashes }

/-- `LoanService.recordCollateralDeposit` (wallet.routes.ts lines 341-420),
after the loan row has been found.  Check order follows the source: status
must be PENDING_COLLATERAL (any other status throws
`ValidationError('Loan is not awaiting collateral')`), the transaction must
verify, then the `LoanTransaction` insert (P2002 on duplicate `txHash`),
then the loan update increments `collateralDeposited` by the verified value
and sets status COLLATERAL_DEPOSITED; when the new collateral reaches
`collateralRequired` the loan is activated in the same operation. -/
def recordCollateralDeposit (st : LedgerState) (txValid : Bool)
    (txValue : ℚ) (txHash : String) (now : ℕ) :
    Except SvcError LedgerState :=
  if st.loan.status ≠ LoanStatus.pendingCollateral then
    Except.error SvcError.validation
  else if ¬ txValid then
    Except.error SvcError.validation
  else if txHash ∈ st.txHashes then
    Except.error SvcError.uniqueViolation
  else
    let updated :=
      { st.loan with
        collateralDeposited := st.loan.collateralDeposited + txValue
        status := LoanStatus.collateralDeposited
        collateralDepositedAt := some now }
    let final :=
      if updated.collateralRequired ≤ updated.collateralDeposited then
        activateLoan updated now
      else
        updated
    Except.ok { loan := final, txHashes := txHash :: st.txHashes }

/-- Run `recordRepayment`; a thrown error rolls the request back, leaving
the ledger state unchanged. -/
def applyRepayment (st : LedgerState) (amount : ℚ) (txHash : String)
    (txValid : Bool) (now : ℕ) : LedgerState :=
  match recordRepayment st amount txHash txValid now with
  | Except.ok st' => st'
  | Except.error _ => st

/-- Run `recordCollateralDeposit`; a thrown error leaves the ledger state
unchanged. -/
def applyDeposit (st : LedgerState) (txValid : Bool) (txValue : ℚ)
    (txHash : String) (now : ℕ) : LedgerState :=
  match recordCollateralDeposit st txValid txValue txHash now with
  | Except.ok st' => st'
  | Except.error _ => st

/-- Arguments of one deposit attempt: (txValid, txValue, txHash, now). -/
def applyDeposits (st : LedgerState) :
    List (Bool × ℚ × String × ℕ) → LedgerState
  | [] => st
  | a :: rest => applyDeposits (applyDeposit st a.1 a.2.1 a.2.2.1 a.2.2.2) rest

end LoanService

namespace AvelonLending

/-- Arithmetic core of `AvelonLending.recordRepayment` (wallet.routes.ts
lines 882-910, Solidity): requires an active loan (checked by the caller of
this core), `amount > 0` and `amount <= principalOwed + interestOwed`; the
payment is applied to interest first, then principal.  `none` models a
revert (failed `require` or uint256 overflow of the sum).  Returns
(interestOwed', principalOwed'). -/
def recordRepayment (amount interestOwed principalOwed : ℕ) :
    Option (ℕ × ℕ) :=
  if amount = 0 then none
  else if 2 ^ 256 ≤ principalOwed + interestOwed then none
  else if principalOwed + interestOwed < amount then none
  else if amount ≤ interestOwed then
    some (interestOwed - amount, principalOwed)
  else
    some (0, principalOwed - (amount - interestOwed))

/-- Arithmetic core of `AvelonLending.activateLoan` (wallet.routes.ts line
872): `interestOwed = principal * rateBps * durationSeconds / (365 days *
10000)` in uint256 arithmetic; `none` models an overflow revert of the
product. -/
def activateInterest (principal rateBps durationSeconds : ℕ) : Option ℕ :=
  if 2 ^ 256 ≤ principal * rateBps * durationSeconds then none
  else some (principal * rateBps * durationSeconds / (365 * 86400 * 10000))

end AvelonLending

namespace CollateralManager

/-- Maximum uint256 value, `type(uint256).max`. -/
def UINT256_MAX : ℕ := 2 ^ 256 - 1

/-- `CollateralManager.getCollateralRatio` (src/unnamed/part_002 lines
269-292): returns 0 when no collateral is deposited, `type(uint256).max`
when collateral is positive but `totalOwed == 0`, otherwise
`collateral * 10000 / totalOwed` (integer division) in basis points.
`totalOwed = principalOwed + interestOwed` is read from the lending
contract; `none` models a revert from uint256 overflow of
`collateral * 10000`. -/
def getCollateralRatio (collateral totalOwed : ℕ) : Option ℕ :=
  if collateral = 0 then some 0
  else if totalOwed = 0 then some UINT256_MAX
  else if 2 ^ 256 ≤ collateral * 10000 then none
  else some (collateral * 10000 / totalOwed)

end CollateralManager

namespace LoanRoutes

/-- Collateral ratio computed by the GET /loans/:id handler
(src/src/routes/loan.routes.ts lines 99-111):
`collateralDeposited.div(totalOwed).mul(100).toNumber()` guarded by
`collateralDeposited > 0 && totalOwed > 0`; `none` is the handler's `null`.
Decimal division and multiplication are modelled as exact rational
arithmetic. -/
def collateralRatio (collateralDeposited totalOwed : ℚ) : Option ℚ :=
  if collateralDeposited > 0 ∧ totalOwed > 0 then
    some (collateralDeposited / totalOwed * 100)
  else
    none

end LoanRoutes

/-
  Concrete fixtures used by witnesses and counterexamples.
-/

/-- A transaction hash. -/
def txA : String := "0xaaaa1111"

/-- Another transaction hash. -/
def txB : String := "0xbbbb2222"

/-- An Active loan: principal 10, all collateral posted, owed buckets
(fees, interest, principal) = (0, 1, 10). -/
def activeLoan : Loan :=
  { principal := 10
    collateralRequired := 15
    collateralDeposited := 15
    originationFee := 0
    principalOwed := 10
    interestOwed := 1
    feesOwed := 0
    interestRate := 5
    duration := 30
    status := LoanStatus.active
    collateralDepositedAt := some 0
    disbursedAt := some 0
    dueDate := some 30
    repaidAt := none }

/-- Ledger state holding `activeLoan` with no transactions recorded yet. -/
def activeState : LedgerState := { loan := activeLoan, txHashes := [] }

/-- A freshly created loan awaiting collateral (the state `createLoan`
persists: `collateralDeposited` defaults to 0, `interestOwed` and `feesOwed`
default to 0, `principalOwed = principal`). -/
def pendingLoan : Loan :=
  { activeLoan with
    status := LoanStatus.pendingCollateral
    collateralDeposited := 0
    interestOwed := 0
    collateralDepositedAt := none
    disbursedAt := none
    dueDate := none }

/-- Ledger state holding `pendingLoan` with no transactions recorded yet. -/
def pendingState : LedgerState := { loan := pendingLoan, txHashes := [] }

/-- The worked spec example: principal 1.0 ETH, 5 %/yr, 30 days. -/
def exampleLoan : Loan :=
  { pendingLoan with
    principal := 1
    principalOwed := 1
    collateralRequired := 3 / 2
    interestRate := 5
    duration := 30 }

/-
  General lemmas about the repayment waterfall.
-/

theorem payBucket_closed (r b : ℚ) (hr : 0 ≤ r) (hb : 0 ≤ b) :
    LoanService.payBucket r b = (b - min r b, r - min r b) := by
  unfold LoanService.payBucket
  by_cases h : r > 0 ∧ b > 0
  · simp [h]
  · have hmin : min r b = 0 := by
      rcases not_and_or.mp h with h1 | h1
      · have hr0 : r = 0 := le_antisymm (not_lt.mp h1) hr
        rw [hr0]
        exact min_eq_left hb
      · have hb0 : b = 0 := le_antisymm (not_lt.mp h1) hb
        rw [hb0]
        exact min_eq_right hr
    simp [h, hmin]

theorem allocate_closed (payment f i p : ℚ)
    (hpay : 0 ≤ payment) (hf : 0 ≤ f) (hi : 0 ≤ i) (hp : 0 ≤ p) :
    LoanService.allocate payment f i p =
      (f - min payment f,
       i - min (payment - min payment f) i,
       p - min (payment - min payment f - min (payment - min payment f) i)
         p) := by
  have h1 : 0 ≤ payment - min payment f := by
    have := min_le_left payment f
    linarith
  have h2 : 0 ≤ payment - min payment f - min (payment - min payment f) i := by
    have := min_le_left (payment - min payment f) i
    linarith
  simp only [LoanService.allocate]
  rw [payBucket_closed payment f hpay hf]
  simp only
  rw [payBucket_closed (payment - min payment f) i h1 hi]
  simp only
  rw [payBucket_closed (payment - min payment f - min (payment - min payment f) i) p h2 hp]

/-- C3: for every non-negative payment not exceeding
`feesOwed + interestOwed + principalOwed`, the repayment allocation of
`LoanService.recordRepayment` applies the payment fees first, then interest,
then principal, each step subtracting `min(remaining, bucket)` from both the
bucket and the remaining payment; the total amount allocated never exceeds
the payment and no bucket ever becomes negative. -/
theorem allocate_strict_waterfall (payment f i p : ℚ)
    (hpay : 0 ≤ payment) (hf : 0 ≤ f) (hi : 0 ≤ i) (hp : 0 ≤ p)
    (hle : payment ≤ f + i + p) :
    LoanService.allocate payment f i p =
      (f - min payment f,
       i - min (payment - min payment f) i,
       p - min (payment - min payment f - min (payment - min payment f) i)
         p) ∧
    f + i + p -
        ((LoanService.allocate payment f i p).1 +
         (LoanService.allocate payment f i p).2.1 +
         (LoanService.allocate payment f i p).2.2) ≤ payment ∧
    0 ≤ (LoanService.allocate payment f i p).1 ∧
    0 ≤ (LoanService.allocate payment f i p).2.1 ∧
    0 ≤ (LoanService.allocate payment f i p).2.2 := by
  have hcl := allocate_closed payment f i p hpay hf hi hp
  refine ⟨hcl, ?_, ?_, ?_, ?_⟩
  · rw [hcl]
    simp only
    have m1 := min_le_left payment f
    have m2 := min_le_left (payment - min payment f) i
    have m3 := min_le_left
      (payment - min payment f - min (payment - min payment f) i) p
    linarith
  · rw [hcl]
    simp only
    have := min_le_right payment f
    linarith
  · rw [hcl]
    simp only
    have := min_le_right (payment - min payment f) i
    linarith
  · rw [hcl]
    simp only
    have := min_le_right
      (payment - min payment f - min (payment - min payment f) i) p
    linarith

/-- Witness for C3: the theorem applied at payment 3 against buckets
(fees, interest, principal) = (1, 1, 2) yields the buckets (0, 0, 1). -/
theorem allocate_strict_waterfall_witness :
    LoanService.allocate 3 1 1 2 = (0, 0, 1) ∧
    0 ≤ (LoanService.allocate 3 1 1 2).2.2 := by
  have h := allocate_strict_waterfall 3 1 1 2 (by norm_num) (by norm_num)
    (by norm_num) (by norm_num) (by norm_num)
  refine ⟨?_, h.2.2.2.2⟩
  rw [h.1]
  norm_num

/-- C2: on the input states both repayment paths accept — states the
on-chain contract can represent (its `Loan` has no fees bucket, so
`feesOwed = 0`) with `0 < amount ≤ interestOwed + principalOwed` — the
off-chain waterfall of `LoanService.recordRepayment` and the on-chain
`AvelonLending.recordRepayment` produce the same post-payment owed
amounts. -/
theorem repayment_allocation_parity (amount interestOwed principalOwed : ℕ)
    (hpos : 0 < amount)
    (hle : amount ≤ interestOwed + principalOwed)
    (hov : principalOwed + interestOwed < 2 ^ 256) :
    ∃ i' p',
      AvelonLending.recordRepayment amount interestOwed principalOwed =
        some (i', p') ∧
      LoanService.allocate (amount : ℚ) 0 (interestOwed : ℚ)
        (principalOwed : ℚ) = (0, (i' : ℚ), (p' : ℚ)) := by
  have h0 : amount ≠ 0 := Nat.pos_iff_ne_zero.mp hpos
  have hq0 : (0 : ℚ) ≤ (amount : ℚ) := by positivity
  have hcl := allocate_closed (amount : ℚ) 0 (interestOwed : ℚ)
    (principalOwed : ℚ) hq0 le_rfl (by positivity) (by positivity)
  rw [min_eq_right hq0] at hcl
  simp only [sub_zero] at hcl
  by_cases ha : amount ≤ interestOwed
  · refine ⟨interestOwed - amount, principalOwed, ?_, ?_⟩
    · unfold AvelonLending.recordRepayment
      rw [if_neg h0, if_neg (not_le.mpr hov), if_neg (by omega), if_pos ha]
    · rw [hcl]
      have hmin1 : min (amount : ℚ) (interestOwed : ℚ) = (amount : ℚ) :=
        min_eq_left (by exact_mod_cast ha)
      rw [hmin1, sub_self]
      have hminp : min (0 : ℚ) (principalOwed : ℚ) = 0 :=
        min_eq_left (by positivity)
      rw [hminp, sub_zero]
      have : ((interestOwed - amount : ℕ) : ℚ) =
          (interestOwed : ℚ) - (amount : ℚ) := by
        push_cast [ha]
        ring
      rw [this]
  · have hlt : interestOwed < amount := not_le.mp ha
    refine ⟨0, principalOwed - (amount - interestOwed), ?_, ?_⟩
    · unfold AvelonLending.recordRepayment
      rw [if_neg h0, if_neg (not_le.mpr hov), if_neg (by omega), if_neg ha]
    · rw [hcl]
      have hmin1 : min (amount : ℚ) (interestOwed : ℚ) = (interestOwed : ℚ) :=
        min_eq_right (by exact_mod_cast hlt.le)
      rw [hmin1, sub_self]
      have hsub : amount - interestOwed ≤ principalOwed := by omega
      have hmin2 : min ((amount : ℚ) - (interestOwed : ℚ))
          (principalOwed : ℚ) = (amount : ℚ) - (interestOwed : ℚ) := by
        apply min_eq_left
        have hc : ((amount - interestOwed : ℕ) : ℚ) ≤ (principalOwed : ℚ) := by
          exact_mod_cast hsub
        push_cast [hlt.le] at hc
        linarith
      rw [hmin2]
      have : ((principalOwed - (amount - interestOwed) : ℕ) : ℚ) =
          (principalOwed : ℚ) - ((amount : ℚ) - (interestOwed : ℚ)) := by
        push_cast [hsub, hlt.le]
        ring
      rw [this]
      norm_num

/-- Witness for C2: payment 2 against interest 1, principal 3 yields
(interest, principal) = (0, 2) on both sides. -/
theorem repayment_allocation_parity_witness :
    AvelonLending.recordRepayment 2 1 3 = some (0, 2) ∧
    LoanService.allocate 2 0 1 3 = (0, 0, 2) := by
  obtain ⟨i', p', h1, h2⟩ := repayment_allocation_parity 2 1 3
    (by decide) (by decide) (by decide)
  have hev : AvelonLending.recordRepayment 2 1 3 = some (0, 2) := by decide
  have hips : some ((0 : ℕ), (2 : ℕ)) = some (i', p') := hev.symm.trans h1
  have hpair : i' = 0 ∧ p' = 2 := by
    simpa using hips.symm
  refine ⟨hev, ?_⟩
  rw [hpair.1, hpair.2] at h2
  have h3 : LoanService.allocate ((2 : ℕ) : ℚ) 0 ((1 : ℕ) : ℚ)
      ((3 : ℕ) : ℚ) = (0, ((0 : ℕ) : ℚ), ((2 : ℕ) : ℚ)) := h2
  norm_num at h3
  exact h3

/-
  Characterisation of successful and failing `recordRepayment` calls.
-/

theorem recordRepayment_ok_spec (st st' : LedgerState) (amount : ℚ)
    (txHash : String) (txValid : Bool) (now : ℕ)
    (hok : LoanService.recordRepayment st amount txHash txValid now =
      Except.ok st') :
    st.loan.status = LoanStatus.active ∧ txValid = true ∧
    amount ≤ totalOwed st.loan ∧ txHash ∉ st.txHashes ∧
    st'.loan.principalOwed = (LoanService.allocate amount st.loan.feesOwed
      st.loan.interestOwed st.loan.principalOwed).2.2 ∧
    st'.loan.interestOwed = (LoanService.allocate amount st.loan.feesOwed
      st.loan.interestOwed st.loan.principalOwed).2.1 ∧
    st'.loan.feesOwed = (LoanService.allocate amount st.loan.feesOwed
      st.loan.interestOwed st.loan.principalOwed).1 ∧
    st'.loan.status = (if st'.loan.principalOwed + st'.loan.interestOwed +
        st'.loan.feesOwed ≤ 0 then LoanStatus.repaid else st.loan.status) ∧
    st'.loan.repaidAt = (if st'.loan.principalOwed + st'.loan.interestOwed +
        st'.loan.feesOwed ≤ 0 then some now else st.loan.repaidAt) ∧
    st'.txHashes = txHash :: st.txHashes := by
  unfold LoanService.recordRepayment at hok
  by_cases h1 : st.loan.status ≠ LoanStatus.active
  · rw [if_pos h1] at hok
    exact absurd hok (by simp)
  rw [if_neg h1] at hok
  by_cases h2 : ¬ txValid
  · rw [if_pos h2] at hok
    exact absurd hok (by simp)
  rw [if_neg h2] at hok
  by_cases h3 : totalOwed st.loan < amount
  · rw [if_pos h3] at hok
    exact absurd hok (by simp)
  rw [if_neg h3] at hok
  by_cases h4 : txHash ∈ st.txHashes
  · rw [if_pos h4] at hok
    exact absurd hok (by simp)
  rw [if_neg h4] at hok
  have h := Except.ok.inj hok
  subst h
  exact ⟨not_not.mp h1, not_not.mp h2, not_lt.mp h3, h4, rfl, rfl, rfl,
    rfl, rfl, rfl⟩

theorem payBucket_bucket_nonneg (r b : ℚ) (hb : 0 ≤ b) :
    0 ≤ (LoanService.payBucket r b).1 := by
  unfold LoanService.payBucket
  by_cases h : r > 0 ∧ b > 0
  · rw [if_pos h]
    have := min_le_right r b
    simp only
    linarith
  · rw [if_neg h]
    exact hb

theorem allocate_buckets_nonneg (payment f i p : ℚ)
    (hf : 0 ≤ f) (hi : 0 ≤ i) (hp : 0 ≤ p) :
    0 ≤ (LoanService.allocate payment f i p).1 ∧
    0 ≤ (LoanService.allocate payment f i p).2.1 ∧
    0 ≤ (LoanService.allocate payment f i p).2.2 :=
  ⟨payBucket_bucket_nonneg payment f hf,
   payBucket_bucket_nonneg (LoanService.payBucket payment f).2 i hi,
   payBucket_bucket_nonneg
     (LoanService.payBucket (LoanService.payBucket payment f).2 i).2 p hp⟩

theorem recordRepayment_ok_exists (st : LedgerState) (amount : ℚ)
    (txHash : String) (txValid : Bool) (now : ℕ)
    (hact : st.loan.status = LoanStatus.active) (hv : txValid = true)
    (hle : amount ≤ totalOwed st.loan) (hmem : txHash ∉ st.txHashes) :
    ∃ st', LoanService.recordRepayment st amount txHash txValid now =
      Except.ok st' := by
  unfold LoanService.recordRepayment
  rw [if_neg (not_not_intro hact), if_neg (not_not_intro hv),
    if_neg (not_lt.mpr hle), if_neg hmem]
  exact ⟨_, rfl⟩

theorem recordRepayment_dup (st : LedgerState) (amount : ℚ)
    (txHash : String) (txValid : Bool) (now : ℕ)
    (hact : st.loan.status = LoanStatus.active) (hv : txValid = true)
    (hle : amount ≤ totalOwed st.loan) (hmem : txHash ∈ st.txHashes) :
    LoanService.recordRepayment st amount txHash txValid now =
      Except.error SvcError.uniqueViolation := by
  unfold LoanService.recordRepayment
  rw [if_neg (not_not_intro hact), if_neg (not_not_intro hv),
    if_neg (not_lt.mpr hle), if_pos hmem]

theorem recordRepayment_txhash_reused (st : LedgerState) (amount : ℚ)
    (txHash : String) (txValid : Bool) (now : ℕ)
    (hmem : txHash ∈ st.txHashes) :
    ∃ e, LoanService.recordRepayment st amount txHash txValid now =
      Except.error e := by
  unfold LoanService.recordRepayment
  by_cases h1 : st.loan.status ≠ LoanStatus.active
  · rw [if_pos h1]
    exact ⟨_, rfl⟩
  rw [if_neg h1]
  by_cases h2 : ¬ txValid
  · rw [if_pos h2]
    exact ⟨_, rfl⟩
  rw [if_neg h2]
  by_cases h3 : totalOwed st.loan < amount
  · rw [if_pos h3]
    exact ⟨_, rfl⟩
  rw [if_neg h3, if_pos hmem]
  exact ⟨_, rfl⟩

theorem deposit_requires_pending (st : LedgerState) (txValid : Bool)
    (txValue : ℚ) (txHash : String) (now : ℕ)
    (h : st.loan.status ≠ LoanStatus.pendingCollateral) :
    LoanService.recordCollateralDeposit st txValid txValue txHash now =
      Except.error SvcError.validation := by
  unfold LoanService.recordCollateralDeposit
  rw [if_pos h]

theorem recordCollateralDeposit_txhash_reused (st : LedgerState)
    (txValid : Bool) (txValue : ℚ) (txHash : String) (now : ℕ)
    (hmem : txHash ∈ st.txHashes) :
    ∃ e, LoanService.recordCollateralDeposit st txValid txValue txHash now =
      Except.error e := by
  unfold LoanService.recordCollateralDeposit
  by_cases h1 : st.loan.status ≠ LoanStatus.pendingCollateral
  · rw [if_pos h1]
    exact ⟨_, rfl⟩
  rw [if_neg h1]
  by_cases h2 : ¬ txValid
  · rw [if_pos h2]
    exact ⟨_, rfl⟩
  rw [if_neg h2, if_pos hmem]
  exact ⟨_, rfl⟩

theorem applyRepayment_eq_of_ok (st st' : LedgerState) (amount : ℚ)
    (txHash : String) (txValid : Bool) (now : ℕ)
    (h : LoanService.recordRepayment st amount txHash txValid now =
      Except.ok st') :
    LoanService.applyRepayment st amount txHash txValid now = st' := by
  unfold LoanService.applyRepayment
  rw [h]

theorem applyRepayment_eq_of_error (st : LedgerState) (amount : ℚ)
    (txHash : String) (txValid : Bool) (now : ℕ) (e : SvcError)
    (h : LoanService.recordRepayment st amount txHash txValid now =
      Except.error e) :
    LoanService.applyRepayment st amount txHash txValid now = st := by
  unfold LoanService.applyRepayment
  rw [h]

theorem applyDeposit_eq_of_ok (st st' : LedgerState) (txValid : Bool)
    (txValue : ℚ) (txHash : String) (now : ℕ)
    (h : LoanService.recordCollateralDeposit st txValid txValue txHash now =
      Except.ok st') :
    LoanService.applyDeposit st txValid txValue txHash now = st' := by
  unfold LoanService.applyDeposit
  rw [h]

theorem applyDeposit_eq_of_error (st : LedgerState) (txValid : Bool)
    (txValue : ℚ) (txHash : String) (now : ℕ) (e : SvcError)
    (h : LoanService.recordCollateralDeposit st txValid txValue txHash now =
      Except.error e) :
    LoanService.applyDeposit st txValid txValue txHash now = st := by
  unfold LoanService.applyDeposit
  rw [h]

theorem recordCollateralDeposit_ok_spec (st st' : LedgerState)
    (txValid : Bool) (txValue : ℚ) (txHash : String) (now : ℕ)
    (hok : LoanService.recordCollateralDeposit st txValid txValue txHash now =
      Except.ok st') :
    st.loan.status = LoanStatus.pendingCollateral ∧ txValid = true ∧
    txHash ∉ st.txHashes ∧
    st'.txHashes = txHash :: st.txHashes ∧
    st'.loan.collateralDeposited = st.loan.collateralDeposited + txValue ∧
    st'.loan.status =
      (if st.loan.collateralRequired ≤
          st.loan.collateralDeposited + txValue then LoanStatus.active
       else LoanStatus.collateralDeposited) := by
  unfold LoanService.recordCollateralDeposit at hok
  by_cases h1 : st.loan.status ≠ LoanStatus.pendingCollateral
  · rw [if_pos h1] at hok
    exact absurd hok (by simp)
  rw [if_neg h1] at hok
  by_cases h2 : ¬ txValid
  · rw [if_pos h2] at hok
    exact absurd hok (by simp)
  rw [if_neg h2] at hok
  by_cases h3 : txHash ∈ st.txHashes
  · rw [if_pos h3] at hok
    exact absurd hok (by simp)
  rw [if_neg h3] at hok
  have h := Except.ok.inj hok
  subst h
  refine ⟨not_not.mp h1, not_not.mp h2, h3, rfl, ?_, ?_⟩
  · by_cases hc : st.loan.collateralRequired ≤
      st.loan.collateralDeposited + txValue
    · show ((if st.loan.collateralRequired ≤
          st.loan.collateralDeposited + txValue then _ else _) :
          Loan).collateralDeposited = _
      rw [if_pos hc]
      rfl
    · show ((if st.loan.collateralRequired ≤
          st.loan.collateralDeposited + txValue then _ else _) :
          Loan).collateralDeposited = _
      rw [if_neg hc]
  · by_cases hc : st.loan.collateralRequired ≤
      st.loan.collateralDeposited + txValue
    · show ((if st.loan.collateralRequired ≤
          st.loan.collateralDeposited + txValue then _ else _) :
          Loan).status = _
      rw [if_pos hc, if_pos hc]
      rfl
    · show ((if st.loan.collateralRequired ≤
          st.loan.collateralDeposited + txValue then _ else _) :
          Loan).status = _
      rw [if_neg hc, if_neg hc]

/-- C5: a successful `recordRepayment` on a loan with non-negative owed
buckets was necessarily made on an Active loan, flips it to Repaid with
`repaidAt` stamped exactly when the post-allocation buckets sum to 0, and a
repayment of exactly `feesOwed + interestOwed + principalOwed` zeroes all
three buckets and flips the status from Active to Repaid. -/
theorem repaid_iff_total_zero (st st' : LedgerState) (amount : ℚ)
    (txHash : String) (txValid : Bool) (now : ℕ)
    (hf : 0 ≤ st.loan.feesOwed) (hi : 0 ≤ st.loan.interestOwed)
    (hp : 0 ≤ st.loan.principalOwed)
    (hok : LoanService.recordRepayment st amount txHash txValid now =
      Except.ok st') :
    st.loan.status = LoanStatus.active ∧
    ((st'.loan.status = LoanStatus.repaid ∧ st'.loan.repaidAt = some now) ↔
      st'.loan.principalOwed + st'.loan.interestOwed + st'.loan.feesOwed =
        0) ∧
    (amount = st.loan.feesOwed + st.loan.interestOwed +
        st.loan.principalOwed →
      st'.loan.feesOwed = 0 ∧ st'.loan.interestOwed = 0 ∧
      st'.loan.principalOwed = 0 ∧ st'.loan.status = LoanStatus.repaid) := by
  obtain ⟨hact, _, _, _, hP, hI, hF, hS, hR, _⟩ :=
    recordRepayment_ok_spec st st' amount txHash txValid now hok
  obtain ⟨hF0, hI0, hP0⟩ := allocate_buckets_nonneg amount st.loan.feesOwed
    st.loan.interestOwed st.loan.principalOwed hf hi hp
  have hsum0 : 0 ≤ st'.loan.principalOwed + st'.loan.interestOwed +
      st'.loan.feesOwed := by
    rw [hP, hI, hF]
    linarith
  refine ⟨hact, ⟨?_, ?_⟩, ?_⟩
  · rintro ⟨hrep, _⟩
    by_contra hne
    have hgt : ¬ (st'.loan.principalOwed + st'.loan.interestOwed +
        st'.loan.feesOwed ≤ 0) := fun hle0 =>
      hne (le_antisymm hle0 hsum0)
    rw [if_neg hgt, hact] at hS
    exact absurd (hS.symm.trans hrep) (by decide)
  · intro hzero
    rw [if_pos (le_of_eq hzero)] at hS
    rw [if_pos (le_of_eq hzero)] at hR
    exact ⟨hS, hR⟩
  · intro hamt
    have hpay : 0 ≤ amount := by
      rw [hamt]
      linarith
    have hcl := allocate_closed amount st.loan.feesOwed st.loan.interestOwed
      st.loan.principalOwed hpay hf hi hp
    have hminf : min amount st.loan.feesOwed = st.loan.feesOwed :=
      min_eq_right (by rw [hamt]; linarith)
    have hr1 : amount - min amount st.loan.feesOwed =
        st.loan.interestOwed + st.loan.principalOwed := by
      rw [hminf, hamt]
      ring
    have hmini : min (amount - min amount st.loan.feesOwed)
        st.loan.interestOwed = st.loan.interestOwed := by
      rw [hr1]
      exact min_eq_right (by linarith)
    have hr2 : amount - min amount st.loan.feesOwed -
        min (amount - min amount st.loan.feesOwed) st.loan.interestOwed =
        st.loan.principalOwed := by
      rw [hmini, hr1]
      ring
    have hminp : min (amount - min amount st.loan.feesOwed -
        min (amount - min amount st.loan.feesOwed) st.loan.interestOwed)
        st.loan.principalOwed = st.loan.principalOwed := by
      rw [hr2]
      exact min_self _
    rw [hcl] at hP hI hF
    simp only at hP hI hF
    rw [hminf, sub_self] at hF
    rw [hmini, sub_self] at hI
    rw [hminp, sub_self] at hP
    refine ⟨hF, hI, hP, ?_⟩
    rw [if_pos (by rw [hP, hI, hF]; norm_num)] at hS
    exact hS

/-- Witness for C5: repaying exactly 11 = 0 + 1 + 10 on `activeState` zeroes
all buckets and flips the loan to Repaid. -/
theorem repaid_iff_total_zero_witness :
    (LoanService.applyRepayment activeState 11 txA true 7).loan.feesOwed =
      0 ∧
    (LoanService.applyRepayment activeState 11 txA true
      7).loan.interestOwed = 0 ∧
    (LoanService.applyRepayment activeState 11 txA true
      7).loan.principalOwed = 0 ∧
    (LoanService.applyRepayment activeState 11 txA true 7).loan.status =
      LoanStatus.repaid := by
  obtain ⟨st', hok⟩ := recordRepayment_ok_exists activeState 11 txA true 7
    rfl rfl (by norm_num [totalOwed, activeState, activeLoan])
    (by simp [activeState])
  rw [applyRepayment_eq_of_ok activeState st' 11 txA true 7 hok]
  exact (repaid_iff_total_zero activeState st' 11 txA true 7
    (by norm_num [activeState, activeLoan])
    (by norm_num [activeState, activeLoan])
    (by norm_num [activeState, activeLoan]) hok).2.2
    (by norm_num [activeState, activeLoan])

/-- C6: for an Active loan and any repayment amount strictly greater than
`principalOwed + interestOwed + feesOwed`, `recordRepayment` rejects with
`ValidationError` and leaves the ledger state (hence every owed bucket)
unchanged. -/
theorem overpayment_rejected (st : LedgerState) (amount : ℚ)
    (txHash : String) (now : ℕ)
    (hact : st.loan.status = LoanStatus.active)
    (hover : st.loan.principalOwed + st.loan.interestOwed +
      st.loan.feesOwed < amount) :
    LoanService.recordRepayment st amount txHash true now =
      Except.error SvcError.validation ∧
    LoanService.applyRepayment st amount txHash true now = st := by
  have herr : LoanService.recordRepayment st amount txHash true now =
      Except.error SvcError.validation := by
    unfold LoanService.recordRepayment
    rw [if_neg (not_not_intro hact), if_neg (not_not_intro rfl),
      if_pos (show totalOwed st.loan < amount from hover)]
  exact ⟨herr,
    applyRepayment_eq_of_error st amount txHash true now SvcError.validation
      herr⟩

/-- Witness for C6: repaying 100 against a total owed of 11 is rejected with
`ValidationError` and the state is unchanged. -/
theorem overpayment_rejected_witness :
    LoanService.recordRepayment activeState 100 txA true 0 =
      Except.error SvcError.validation ∧
    LoanService.applyRepayment activeState 100 txA true 0 = activeState :=
  overpayment_rejected activeState 100 txA 0 rfl
    (by norm_num [activeState, activeLoan])

/-- C4 counterexample: after a successful repayment with `txA`, a second
repayment call with the same `txA` fails with the Prisma unique-constraint
violation (P2002, surfaced as a generic 500 INTERNAL_ERROR by the error
middleware), not with `ConflictError`; the first call did succeed and was
applied (interest bucket went from 1 to 0 and `txA` was recorded). -/
theorem duplicate_txhash_counterexample :
    LoanService.recordRepayment
        (LoanService.applyRepayment activeState 1 txA true 0) 1 txA true 1 =
      Except.error SvcError.uniqueViolation ∧
    SvcError.uniqueViolation ≠ SvcError.conflict ∧
    (LoanService.applyRepayment activeState 1 txA true
      0).loan.interestOwed = 0 ∧
    (LoanService.applyRepayment activeState 1 txA true 0).txHashes =
      [txA] := by
  obtain ⟨st', hok⟩ := recordRepayment_ok_exists activeState 1 txA true 0
    rfl rfl (by norm_num [totalOwed, activeState, activeLoan])
    (by simp [activeState])
  rw [applyRepayment_eq_of_ok activeState st' 1 txA true 0 hok]
  obtain ⟨_, _, _, _, hP, hI, hF, hS, _, hT⟩ :=
    recordRepayment_ok_spec activeState st' 1 txA true 0 hok
  have hA : LoanService.allocate 1 activeState.loan.feesOwed
      activeState.loan.interestOwed activeState.loan.principalOwed =
      (0, 0, 10) := by
    rw [allocate_closed 1 activeState.loan.feesOwed
      activeState.loan.interestOwed activeState.loan.principalOwed
      (by norm_num) (by norm_num [activeState, activeLoan])
      (by norm_num [activeState, activeLoan])
      (by norm_num [activeState, activeLoan])]
    simp only [activeState, activeLoan]
    norm_num [min_def]
  rw [hA] at hP hI hF
  have hact' : st'.loan.status = LoanStatus.active := by
    rw [hS, if_neg (by rw [hP, hI, hF]; norm_num)]
    rfl
  have hle' : (1 : ℚ) ≤ totalOwed st'.loan := by
    unfold totalOwed
    rw [hP, hI, hF]
    norm_num
  have hmem : txA ∈ st'.txHashes := by
    rw [hT]
    exact List.mem_cons_self _ _
  refine ⟨recordRepayment_dup st' 1 txA true 1 hact' rfl hle' hmem,
    by decide, hI, ?_⟩
  rw [hT]
  simp [activeState]

/-- C4 (amended): once a `recordRepayment` or `recordCollateralDeposit`
call has succeeded with some `txHash`, any later call carrying the same
`txHash` fails (with `uniqueViolation` from the txHash unique index, or with
an earlier precondition error) — it never succeeds — and the failed call
leaves the ledger state, hence every monetary field, unchanged. -/
theorem duplicate_txhash_never_reapplied (st st' : LedgerState)
    (amount txValue : ℚ) (txHash : String) (txValid : Bool) (now : ℕ)
    (hok : LoanService.recordRepayment st amount txHash txValid now =
        Except.ok st' ∨
      LoanService.recordCollateralDeposit st txValid txValue txHash now =
        Except.ok st') :
    (∀ a v n, ∃ e, LoanService.recordRepayment st' a txHash v n =
      Except.error e) ∧
    (∀ a v n, LoanService.applyRepayment st' a txHash v n = st') ∧
    (∀ v val n, ∃ e,
      LoanService.recordCollateralDeposit st' v val txHash n =
        Except.error e) ∧
    (∀ v val n, LoanService.applyDeposit st' v val txHash n = st') := by
  have hmem : txHash ∈ st'.txHashes := by
    rcases hok with h | h
    · rw [(recordRepayment_ok_spec st st' amount txHash txValid now
        h).2.2.2.2.2.2.2.2.2]
      exact List.mem_cons_self _ _
    · rw [(recordCollateralDeposit_ok_spec st st' txValid txValue txHash now
        h).2.2.2.1]
      exact List.mem_cons_self _ _
  refine ⟨?_, ?_, ?_, ?_⟩
  · intro a v n
    exact recordRepayment_txhash_reused st' a txHash v n hmem
  · intro a v n
    obtain ⟨e, he⟩ := recordRepayment_txhash_reused st' a txHash v n hmem
    exact applyRepayment_eq_of_error st' a txHash v n e he
  · intro v val n
    exact recordCollateralDeposit_txhash_reused st' v val txHash n hmem
  · intro v val n
    obtain ⟨e, he⟩ := recordCollateralDeposit_txhash_reused st' v val txHash
      n hmem
    exact applyDeposit_eq_of_error st' v val txHash n e he

/-- Witness for the amended C4: after the repayment with `txA` succeeds on
`activeState`, replaying any repayment with `txA` leaves the state
unchanged. -/
theorem duplicate_txhash_never_reapplied_witness :
    LoanService.applyRepayment
        (LoanService.applyRepayment activeState 1 txA true 0) 2 txA true 1 =
      LoanService.applyRepayment activeState 1 txA true 0 := by
  obtain ⟨st', hok⟩ := recordRepayment_ok_exists activeState 1 txA true 0
    rfl rfl (by norm_num [totalOwed, activeState, activeLoan])
    (by simp [activeState])
  rw [applyRepayment_eq_of_ok activeState st' 1 txA true 0 hok]
  exact (duplicate_txhash_never_reapplied activeState st' 1 0 txA true 0
    (Or.inl hok)).2.1 2 true 1

theorem recordCollateralDeposit_ok_exists (st : LedgerState)
    (txValid : Bool) (txValue : ℚ) (txHash : String) (now : ℕ)
    (hpend : st.loan.status = LoanStatus.pendingCollateral)
    (hv : txValid = true) (hmem : txHash ∉ st.txHashes) :
    ∃ st', LoanService.recordCollateralDeposit st txValid txValue txHash
      now = Except.ok st' := by
  unfold LoanService.recordCollateralDeposit
  rw [if_neg (not_not_intro hpend), if_neg (not_not_intro hv),
    if_neg hmem]
  exact ⟨_, rfl⟩

/-- C7: the on-chain `CollateralManager.getCollateralRatio` returns
`floor(collateral * 10000 / totalOwed)` basis points whenever both inputs
are positive and the call completes, `type(uint256).max` when
`totalOwed = 0` with positive collateral, `0` when collateral is `0`; and
collateral 1.5 ETH (15·10¹⁷ wei) against total owed 1.2 ETH (12·10¹⁷ wei)
yields exactly 12500 bps. -/
theorem chain_collateral_ratio_spec :
    (∀ c t r : ℕ, 0 < c → 0 < t →
      CollateralManager.getCollateralRatio c t = some r →
      r = c * 10000 / t) ∧
    (∀ c : ℕ, 0 < c → CollateralManager.getCollateralRatio c 0 =
      some CollateralManager.UINT256_MAX) ∧
    (∀ t : ℕ, CollateralManager.getCollateralRatio 0 t = some 0) ∧
    CollateralManager.getCollateralRatio (15 * 10 ^ 17) (12 * 10 ^ 17) =
      some 12500 := by
  refine ⟨?_, ?_, ?_, by decide⟩
  · intro c t r hc ht hr
    unfold CollateralManager.getCollateralRatio at hr
    rw [if_neg (Nat.pos_iff_ne_zero.mp hc),
      if_neg (Nat.pos_iff_ne_zero.mp ht)] at hr
    by_cases hov : 2 ^ 256 ≤ c * 10000
    · rw [if_pos hov] at hr
      exact absurd hr (by simp)
    · rw [if_neg hov] at hr
      exact (Option.some.inj hr).symm
  · intro c hc
    unfold CollateralManager.getCollateralRatio
    rw [if_neg (Nat.pos_iff_ne_zero.mp hc), if_pos rfl]
  · intro t
    unfold CollateralManager.getCollateralRatio
    rw [if_pos rfl]

/-- Witness for C7: the floor formula evaluated through the theorem at the
spec's example pair, and the `totalOwed = 0` branch at collateral 7. -/
theorem chain_collateral_ratio_spec_witness :
    (12500 : ℕ) = 15 * 10 ^ 17 * 10000 / (12 * 10 ^ 17) ∧
    CollateralManager.getCollateralRatio 7 0 =
      some CollateralManager.UINT256_MAX :=
  ⟨chain_collateral_ratio_spec.1 (15 * 10 ^ 17) (12 * 10 ^ 17) 12500
    (by norm_num) (by norm_num) chain_collateral_ratio_spec.2.2.2,
   chain_collateral_ratio_spec.2.1 7 (by norm_num)⟩

/-- C1 counterexample: for the pair (collateralDeposited, totalOwed) =
(150, 100) the GET /loans/:id handler returns 150 (a percentage from
decimal division), while the on-chain formula floor(150·10000/100) gives
15000 bps — the claimed equality fails. -/
theorem offchain_ratio_counterexample :
    LoanRoutes.collateralRatio 150 100 = some 150 ∧
    CollateralManager.getCollateralRatio 150 100 = some 15000 ∧
    LoanRoutes.collateralRatio 150 100 ≠
      some (((150 * 10000 / 100 : ℕ) : ℚ)) := by
  refine ⟨?_, by decide, ?_⟩
  · unfold LoanRoutes.collateralRatio
    rw [if_pos (by norm_num)]
    norm_num
  · unfold LoanRoutes.collateralRatio
    rw [if_pos (by norm_num)]
    intro h
    have h2 := Option.some.inj h
    norm_num at h2

/-- C1 (amended): the GET /loans/:id handler computes the collateral ratio
as a percentage `collateralDeposited / totalOwed * 100` by decimal
division, not in basis points; for every positive pair where the division
is exact (`totalOwed` divides `collateralDeposited * 10000`) and the
on-chain multiplication does not overflow, the on-chain basis-point value
is exactly 100 times the off-chain percentage. -/
theorem offchain_percent_vs_onchain_bps (c t : ℕ) (hc : 0 < c) (ht : 0 < t)
    (hdvd : t ∣ c * 10000) (hov : c * 10000 < 2 ^ 256) :
    CollateralManager.getCollateralRatio c t = some (c * 10000 / t) ∧
    LoanRoutes.collateralRatio (c : ℚ) (t : ℚ) =
      some (((c * 10000 / t : ℕ) : ℚ) / 100) := by
  have htq : (0 : ℚ) < t := by exact_mod_cast ht
  constructor
  · unfold CollateralManager.getCollateralRatio
    rw [if_neg (Nat.pos_iff_ne_zero.mp hc),
      if_neg (Nat.pos_iff_ne_zero.mp ht), if_neg (not_le.mpr hov)]
  · unfold LoanRoutes.collateralRatio
    have hcq : (0 : ℚ) < c := by exact_mod_cast hc
    rw [if_pos ⟨hcq, htq⟩]
    congr 1
    have hcast : ((c * 10000 / t : ℕ) : ℚ) = (c : ℚ) * 10000 / (t : ℚ) := by
      rw [Nat.cast_div hdvd (by exact_mod_cast htq.ne')]
      push_cast
      ring
    rw [hcast]
    field_simp
    ring

/-- Witness for the amended C1: at (150, 100) the chain gives 15000 bps and
the handler gives 15000 / 100 = 150 percent. -/
theorem offchain_percent_vs_onchain_bps_witness :
    CollateralManager.getCollateralRatio 150 100 = some 15000 ∧
    LoanRoutes.collateralRatio ((150 : ℕ) : ℚ) ((100 : ℕ) : ℚ) =
      some (((15000 : ℕ) : ℚ) / 100) := by
  have h := offchain_percent_vs_onchain_bps 150 100 (by norm_num)
    (by norm_num) (by decide) (by decide)
  have he : (150 * 10000 / 100 : ℕ) = 15000 := by norm_num
  rw [he] at h
  exact h

/-- C8 (code bug): `LoanService.recordCollateralDeposit` rejects any
deposit when the loan status is not PENDING_COLLATERAL — in particular an
Active-loan top-up (the documented purpose of POST /loans/:id/add-collateral,
which reuses this method) is rejected with
`ValidationError('Loan is not awaiting collateral')` instead of
succeeding. -/
theorem deposit_on_active_loan_rejected :
    LoanService.recordCollateralDeposit activeState true 1 txA 0 =
      Except.error SvcError.validation :=
  deposit_requires_pending activeState true 1 txA 0 (by decide)

/-- C9: activation computes simple interest
`principal * rate/100 * durationDays/365` and sets
`dueDate = activation time + duration`; for principal 1.0 ETH at 5 %/yr
over 30 days this is 3/730 ≈ 0.004110 ETH (within half a unit in the sixth
decimal place). -/
theorem activation_interest_formula :
    (∀ (l : Loan) (now : ℕ),
      (LoanService.activateLoan l now).interestOwed =
        l.principal * (l.interestRate / 100) * ((l.duration : ℚ) / 365) ∧
      (LoanService.activateLoan l now).dueDate = some (now + l.duration) ∧
      (LoanService.activateLoan l now).status = LoanStatus.active) ∧
    (LoanService.activateLoan exampleLoan 0).interestOwed = 3 / 730 ∧
    |(LoanService.activateLoan exampleLoan 0).interestOwed -
      4110 / 10 ^ 6| < 1 / (2 * 10 ^ 6) := by
  have hval : (LoanService.activateLoan exampleLoan 0).interestOwed =
      3 / 730 := by
    show exampleLoan.principal * (exampleLoan.interestRate / 100) *
      ((exampleLoan.duration : ℚ) / 365) = 3 / 730
    norm_num [exampleLoan, pendingLoan, activeLoan]
  refine ⟨fun l now => ⟨rfl, rfl, rfl⟩, hval, ?_⟩
  rw [hval, abs_lt]
  constructor <;> norm_num

/-- C10: when the first successful collateral deposit credits strictly less
than `collateralRequired`, the loan lands in COLLATERAL_DEPOSITED; since
`recordCollateralDeposit` (also reached through the add-collateral route)
requires PENDING_COLLATERAL, every further deposit attempt fails and leaves
the state unchanged, so the loan can never reach Active. -/
theorem partial_first_deposit_dead_end (st st' : LedgerState)
    (txValue : ℚ) (txHash : String) (now : ℕ)
    (hzero : st.loan.collateralDeposited = 0)
    (hlt : txValue < st.loan.collateralRequired)
    (hok : LoanService.recordCollateralDeposit st true txValue txHash now =
      Except.ok st') :
    st'.loan.status = LoanStatus.collateralDeposited ∧
    (∀ attempts, LoanService.applyDeposits st' attempts = st') ∧
    (∀ attempts,
      (LoanService.applyDeposits st' attempts).loan.status ≠
        LoanStatus.active) := by
  obtain ⟨_, _, _, _, _, hS⟩ :=
    recordCollateralDeposit_ok_spec st st' true txValue txHash now hok
  have hcond : ¬ (st.loan.collateralRequired ≤
      st.loan.collateralDeposited + txValue) := by
    rw [hzero, zero_add]
    exact not_le.mpr hlt
  have hstat : st'.loan.status = LoanStatus.collateralDeposited := by
    rw [hS, if_neg hcond]
  have hfix : ∀ attempts, LoanService.applyDeposits st' attempts = st' := by
    intro attempts
    induction attempts with
    | nil => rfl
    | cons a rest ih =>
        have hne : st'.loan.status ≠ LoanStatus.pendingCollateral := by
          rw [hstat]
          decide
        have herr := deposit_requires_pending st' a.1 a.2.1 a.2.2.1
          a.2.2.2 hne
        show LoanService.applyDeposits
          (LoanService.applyDeposit st' a.1 a.2.1 a.2.2.1 a.2.2.2) rest = st'
        rw [applyDeposit_eq_of_error st' a.1 a.2.1 a.2.2.1 a.2.2.2
          SvcError.validation herr]
        exact ih
  refine ⟨hstat, hfix, fun attempts => ?_⟩
  rw [hfix attempts, hstat]
  decide

/-- Witness for C10: a first deposit of 5 against a requirement of 15 on
`pendingState` lands in COLLATERAL_DEPOSITED, and a subsequent full top-up
attempt of 20 changes nothing. -/
theorem partial_first_deposit_dead_end_witness :
    (LoanService.applyDeposit pendingState true 5 txA 0).loan.status =
      LoanStatus.collateralDeposited ∧
    LoanService.applyDeposits
        (LoanService.applyDeposit pendingState true 5 txA 0)
        [(true, 20, txB, 1)] =
      LoanService.applyDeposit pendingState true 5 txA 0 := by
  obtain ⟨st', hok⟩ := recordCollateralDeposit_ok_exists pendingState true 5
    txA 0 rfl rfl (by simp [pendingState])
  rw [applyDeposit_eq_of_ok pendingState st' true 5 txA 0 hok]
  have h := partial_first_deposit_dead_end pendingState st' 5 txA 0 rfl
    (by norm_num [pendingState, pendingLoan, activeLoan]) hok
  exact ⟨h.1, h.2.1 [(true, 20, txB, 1)]⟩

end Avelon
